import Mathlib

/-
  Verification of the sqldb single-header SQLite wrapper
  (src/sqldb/sqldb.h) against its natural-language specification.

  The development shallowly embeds the components the claims are about:
  the Value model (SQLValue variant, bindValue / getColumnValue),
  the clause builder inlined in Table::select / Table::update /
  Table::remove, the coercion helpers fromSQLValue / getCol, the
  statement cache (DBContext::getStatement) with shared_ptr reference
  counting, and the Database::TransactionGuard state machine.

  C++ machine integers are modelled as Int with explicit two's-complement
  truncation where a narrowing cast occurs.  C++ double payloads are
  carried opaquely (the wrapped code never inspects them), as DoubleBits.
-/

set_option maxRecDepth 4000

-- ==========================================================
-- Value model (sqldb.h lines 69-78, SQLValue variant)
-- ==========================================================

/-- Opaque carrier for a C++ `double` payload.  No operation of the
embedded code ever inspects or computes with a double; it is only moved
around, so an opaque wrapper is a faithful image. -/
structure DoubleBits where
  bits : Int
deriving DecidableEq, Repr

/-- `using SQLValue = std::variant<std::nullptr_t, int, long long, double,
std::string, std::vector<char>>` (sqldb.h line 69).  Blob bytes are
carried as a list of integers (the `char` values). -/
inductive SQLValue where
  | null
  | int (v : Int)
  | longlong (v : Int)
  | double (v : DoubleBits)
  | text (s : String)
  | blob (b : List Int)
deriving DecidableEq, Repr

/-- The six alternatives of the variant; these are exactly the types `T`
for which `fromSQLValue<T>` / `getCol<T>` instantiate (for any other `T`,
`std::holds_alternative<T>` is ill-formed, so e.g. `T = float` does not
compile and the dead `float` branch of fromSQLValue is unreachable). -/
inductive CppType where
  | null
  | int
  | longlong
  | double
  | text
  | blob
deriving DecidableEq, Repr

/-- The active alternative of an SQLValue. -/
def SQLValue.tag : SQLValue → CppType
  | .null => .null
  | .int _ => .int
  | .longlong _ => .longlong
  | .double _ => .double
  | .text _ => .text
  | .blob _ => .blob

-- ==========================================================
-- quoteIdentifier (sqldb.h lines 47-55)
-- ==========================================================

/-- Double every `"` character, as the find/replace loop in
quoteIdentifier does. -/
def escapeQuotes (cs : List Char) : List Char :=
  match cs with
  | [] => []
  | c :: rest => if c = '"' then '"' :: '"' :: escapeQuotes rest else c :: escapeQuotes rest

/-- `quoteIdentifier`: wrap in double quotes, doubling embedded quotes
(sqldb.h lines 47-55). -/
def quoteIdentifier (ident : String) : String :=
  "\"" ++ String.mk (escapeQuotes ident.data) ++ "\""

-- ==========================================================
-- Conditions, joins, query options (sqldb.h lines 108-174)
-- ==========================================================

/-- `enum class Op { EQ, NEQ, GT, LT, LIKE }` (sqldb.h line 108). -/
inductive Op where
  | EQ
  | NEQ
  | GT
  | LT
  | LIKE
deriving DecidableEq, Repr

/-- `Condition::getOpString` (sqldb.h lines 115-124). -/
def Op.getOpString : Op → String
  | .EQ => "="
  | .NEQ => "!="
  | .GT => ">"
  | .LT => "<"
  | .LIKE => "LIKE"

/-- `struct Condition` (sqldb.h lines 110-114). -/
structure Condition where
  column : String
  op : Op
  value : SQLValue
deriving DecidableEq, Repr

/-- `enum class JoinType` (sqldb.h lines 142-147). -/
inductive JoinType where
  | INNER
  | LEFT
  | RIGHT
  | CROSS
deriving DecidableEq, Repr

/-- `JoinClause::getTypeString` (sqldb.h lines 154-162). -/
def JoinType.getTypeString : JoinType → String
  | .INNER => "INNER JOIN"
  | .LEFT => "LEFT JOIN"
  | .RIGHT => "RIGHT JOIN"
  | .CROSS => "CROSS JOIN"

/-- `struct JoinClause` (sqldb.h lines 149-153). -/
structure JoinClause where
  type : JoinType
  table : String
  onCondition : String
deriving DecidableEq, Repr

/-- `struct QueryOptions` (sqldb.h lines 165-174). -/
structure QueryOptions where
  columns : List String := []
  joins : List JoinClause := []
  groupBy : List String := []
  having : List Condition := []
  orderBy : String := ""
  orderDesc : Bool := false
  limit : Int := -1
  offset : Int := -1
deriving Repr

-- ==========================================================
-- Clause builder (inlined in Table::select / update / remove)
-- ==========================================================

/-- Image of the emission loops `ss << item; if (i < size-1) ss << sep;`:
the separator is emitted after every item but the last. -/
def loopJoin (sep : String) : List String → String
  | [] => ""
  | [x] => x
  | x :: xs => x ++ sep ++ loopJoin sep xs

/-- The raw-expression heuristic `col.find_first_of(" (") != npos`:
true when the string contains a space or an opening parenthesis. -/
def isRawExpr (col : String) : Bool :=
  col.data.any (fun c => c = ' ' || c = '(')

/-- `col.substr(0, dot)`: the part before the first dot. -/
def dotBefore (col : String) : String :=
  String.mk (col.data.takeWhile (fun c => c ≠ '.'))

/-- `col.substr(dot+1)`: everything after the first dot. -/
def dotAfter (col : String) : String :=
  String.mk ((col.data.dropWhile (fun c => c ≠ '.')).tail)

/-- Projected-column rendering in Table::select (sqldb.h lines 562-581):
raw expressions verbatim; otherwise a dotted name is split at the first
dot and both parts quoted; otherwise quoted whole. -/
def selectCol (col : String) : String :=
  if isRawExpr col then col
  else if col.data.contains '.' then
    quoteIdentifier (dotBefore col) ++ "." ++ quoteIdentifier (dotAfter col)
  else quoteIdentifier col

/-- SELECT-list: empty column list renders `*` (sqldb.h lines 558-581). -/
def selectListSQL (cols : List String) : String :=
  if cols.isEmpty then "*" else loopJoin ", " (cols.map selectCol)

/-- One join clause (sqldb.h lines 586-589); `onCondition` is raw SQL. -/
def joinSQL (j : JoinClause) : String :=
  " " ++ j.type.getTypeString ++ " " ++ quoteIdentifier j.table ++ " ON " ++ j.onCondition

def joinsSQL (js : List JoinClause) : String :=
  String.join (js.map joinSQL)

/-- One WHERE predicate (sqldb.h line 594): the column is always quoted. -/
def condSQL (c : Condition) : String :=
  quoteIdentifier c.column ++ " " ++ c.op.getOpString ++ " ?"

/-- WHERE clause (sqldb.h lines 591-597; identical loops at lines
687-694 and 713-719 for update/remove). -/
def whereSQL (w : List Condition) : String :=
  if w.isEmpty then "" else " WHERE " ++ loopJoin " AND " (w.map condSQL)

/-- GROUP BY clause (sqldb.h lines 599-605): columns always quoted. -/
def groupBySQL (g : List String) : String :=
  if g.isEmpty then "" else " GROUP BY " ++ loopJoin ", " (g.map quoteIdentifier)

/-- One HAVING predicate (sqldb.h lines 609-618): raw-expression
heuristic for the column, never dot-split. -/
def havingCondSQL (c : Condition) : String :=
  (if isRawExpr c.column then c.column else quoteIdentifier c.column)
    ++ " " ++ c.op.getOpString ++ " ?"

/-- HAVING clause (sqldb.h lines 607-621). -/
def havingSQL (h : List Condition) : String :=
  if h.isEmpty then "" else " HAVING " ++ loopJoin " AND " (h.map havingCondSQL)

/-- ORDER BY clause (sqldb.h lines 623-637): raw-expression heuristic,
dot-split like projected columns, then ASC/DESC. -/
def orderBySQL (orderBy : String) (orderDesc : Bool) : String :=
  if orderBy.data.isEmpty then ""
  else
    (if isRawExpr orderBy then " ORDER BY " ++ orderBy
     else if orderBy.data.contains '.' then
       " ORDER BY " ++ quoteIdentifier (dotBefore orderBy) ++ "." ++ quoteIdentifier (dotAfter orderBy)
     else " ORDER BY " ++ quoteIdentifier orderBy)
    ++ (if orderDesc then " DESC" else " ASC")

/-- LIMIT clause (sqldb.h lines 638-640). -/
def limitSQL (limit : Int) : String :=
  if 0 ≤ limit then " LIMIT " ++ toString limit else ""

/-- OFFSET clause (sqldb.h lines 641-643). -/
def offsetSQL (offset : Int) : String :=
  if 0 ≤ offset then " OFFSET " ++ toString offset else ""

/-- The full SQL text built by Table::select (sqldb.h lines 556-644). -/
def selectSQL (tableName : String) (w : List Condition) (opts : QueryOptions) : String :=
  "SELECT " ++ selectListSQL opts.columns ++ " FROM " ++ quoteIdentifier tableName
    ++ joinsSQL opts.joins ++ whereSQL w ++ groupBySQL opts.groupBy
    ++ havingSQL opts.having ++ orderBySQL opts.orderBy opts.orderDesc
    ++ limitSQL opts.limit ++ offsetSQL opts.offset ++ ";"

/-- The two parameter-binding loops of Table::select (sqldb.h lines
648-654) share a running index `bindIdx` starting at 1; each call
`bindValue(stmt, bindIdx++, v)` is recorded as an (index, value) pair. -/
def bindSeq (vals : List SQLValue) (start : Nat) : Nat × List (Nat × SQLValue) :=
  match vals with
  | [] => (start, [])
  | v :: vs =>
    let r := bindSeq vs (start + 1)
    (r.1, (start, v) :: r.2)

/-- The sequence of `bindValue` calls issued by Table::select:
WHERE condition values first, then HAVING condition values. -/
def selectBinds (w : List Condition) (opts : QueryOptions) : List (Nat × SQLValue) :=
  let r1 := bindSeq (w.map Condition.value) 1
  let r2 := bindSeq (opts.having.map Condition.value) r1.1
  r1.2 ++ r2.2

/-- Image of the indexed binding loops
`for (i = 0; i < values.size(); ++i) bindValue(stmt, i+1, values[i]);`
used by insert/update/remove. -/
def bindAt (vals : List SQLValue) : List (Nat × SQLValue) :=
  vals.enum.map (fun p => (p.1 + 1, p.2))

/-- SET clause of Table::update (sqldb.h lines 676-685). -/
def updateSetSQL (data : List (String × SQLValue)) : String :=
  loopJoin ", " (data.map (fun kv => quoteIdentifier kv.1 ++ " = ?"))

/-- The SQL text built by Table::update (sqldb.h lines 675-694);
note: no trailing semicolon in the source. -/
def updateSQL (tableName : String) (data : List (String × SQLValue)) (w : List Condition) : String :=
  "UPDATE " ++ quoteIdentifier tableName ++ " SET " ++ updateSetSQL data ++ whereSQL w

/-- The SQL text built by Table::remove (sqldb.h lines 710-719). -/
def deleteSQL (tableName : String) (w : List Condition) : String :=
  "DELETE FROM " ++ quoteIdentifier tableName ++ whereSQL w

-- ==========================================================
-- Helper notions used by theorem statements
-- ==========================================================

/-- Number of occurrences of a character in a string. -/
def countChar (s : String) (c : Char) : Nat :=
  s.data.count c

/-- Reference numbering: pair the values with consecutive indices
starting at `n`.  Used to state what the binding loops produce. -/
def numberedFrom (n : Nat) : List SQLValue → List (Nat × SQLValue)
  | [] => []
  | v :: vs => (n, v) :: numberedFrom (n + 1) vs

/-- Whether an Except result is a success. -/
def isOkE {ε α : Type} : Except ε α → Bool
  | .ok _ => true
  | .error _ => false

-- ==========================================================
-- Engine value interface (Table::bindValue, Table::getColumnValue)
-- ==========================================================

/-- Modelled from the spec: the external engine's native column storage
classes (spec section 6: integer / float / text / blob / null).  Binding
stores a cell of one of these classes; integers occupy a single 64-bit
class. -/
inductive EngineCell where
  | integer (v : Int)
  | float (v : DoubleBits)
  | text (s : String)
  | blob (b : List Int)
  | null
deriving DecidableEq, Repr

/-- What `c_str()` with length `-1`, and the NUL-terminated
`std::string(const char*)` constructor, make of a std::string: the
prefix before the first embedded NUL character. -/
def nulTruncate (s : String) : String :=
  String.mk (s.data.takeWhile (fun c => !(c == Char.ofNat 0)))

/-- `Table::bindValue` (sqldb.h lines 390-407), viewed as the value it
hands to the engine: nullptr via bind_null, int via bind_int (the engine
widens to its 64-bit integer class), long long via bind_int64, double via
bind_double, string via `bind_text(stmt, i, arg.c_str(), -1, TRANSIENT)`
— length -1 makes the engine read only up to the first NUL, so text is
truncated there — vector of char via bind_blob with its full size. -/
def bindValue : SQLValue → EngineCell
  | .null => .null
  | .int v => .integer v
  | .longlong v => .integer v
  | .double v => .float v
  | .text s => .text (nulTruncate s)
  | .blob b => .blob b

/-- `Table::getColumnValue` (sqldb.h lines 410-428): dispatch on the
engine's reported column type; SQLITE_INTEGER is read back with
`(long long)sqlite3_column_int64`, so it always lands in the
`long long` alternative; SQLITE_TEXT is read through the NUL-terminated
`std::string(const char*)` constructor (line 418), so it too stops at
the first embedded NUL; blobs are read with their full byte count. -/
def getColumnValue : EngineCell → SQLValue
  | .integer v => .longlong v
  | .float v => .double v
  | .text s => .text (nulTruncate s)
  | .blob b => .blob b
  | .null => .null

-- ==========================================================
-- Coercion helpers (fromSQLValue, getCol)
-- ==========================================================

/-- `static_cast<int>` applied to a C++ `long long`: two's-complement
truncation to 32 bits. -/
def truncInt32 (v : Int) : Int :=
  (v + 2 ^ 31) % 2 ^ 32 - 2 ^ 31

/-- A row: `std::map<std::string, SQLValue>`; embedded as an association
list with unique keys, looked up by key. -/
def Row : Type := List (String × SQLValue)

/-- `row.find(key)` on the map. -/
def rowLookup : List (String × SQLValue) → String → Option SQLValue
  | [], _ => none
  | kv :: rest, key => if kv.1 = key then some kv.2 else rowLookup rest key

/-- `fromSQLValue<T>` (sqldb.h lines 316-338).  `T` ranges over the six
variant alternatives (CppType); for any other type, e.g. `float`, the
unconditional `std::holds_alternative<T>` call is ill-formed, so the
`float` branch of the C++ source can never be instantiated.  The success
value is returned as the SQLValue alternative of tag `T`. -/
def fromSQLValue (T : CppType) (val : SQLValue) (colName : String) : Except String SQLValue :=
  if val.tag = T then .ok val
  else
    match T, val with
    | .int, .longlong v => .ok (.int (truncInt32 v))
    | .longlong, .int v => .ok (.longlong v)
    | _, _ => .error ("Column type mismatch for column: " ++ colName)

/-- `getCol<T>` (sqldb.h lines 85-105): map lookup, exact-tag match,
then the two int/long-long coercions, else a type-mismatch error. -/
def getCol (T : CppType) (row : List (String × SQLValue)) (key : String) :
    Except String SQLValue :=
  match rowLookup row key with
  | none => .error ("Column not found: " ++ key)
  | some v =>
    if v.tag = T then .ok v
    else
      match T, v with
      | .int, .longlong x => .ok (.int (truncInt32 x))
      | .longlong, .int x => .ok (.longlong x)
      | _, _ => .error ("Column type mismatch: " ++ key)

-- ==========================================================
-- Statement cache (DBContext, sqldb.h lines 180-273)
-- ==========================================================

/-- `const size_t MAX_CACHE_SIZE = 64` (sqldb.h line 190). -/
def MAX_CACHE_SIZE : Nat := 64

/-- State of a DBContext's statement cache.  Compiled statements are
identified by the counter value at which they were prepared.  shared_ptr
ownership is modelled by `callerRefs` (outstanding caller-held shared
references per statement) together with cache membership (the cache's own
reference, one per entry).  `finalized` records, in order, the statements
whose deleter (sqlite3_finalize) has run: the deleter of the shared_ptr
runs exactly when the last reference disappears. -/
structure DBContext where
  statementCache : List (String × Nat)
  lruList : List String
  callerRefs : Nat → Nat
  finalized : List Nat
  nextStmt : Nat

/-- A freshly opened DBContext: empty cache, no outstanding references. -/
def initCtx : DBContext :=
  { statementCache := [], lruList := [], callerRefs := fun _ => 0,
    finalized := [], nextStmt := 0 }

/-- `statementCache.find(sql)` on the unordered_map. -/
def cacheLookup : List (String × Nat) → String → Option Nat
  | [], _ => none
  | kv :: rest, sql => if kv.1 = sql then some kv.2 else cacheLookup rest sql

/-- `statementCache.erase(it)`: remove the entry of a key (keys are
unique in the unordered_map, so removing every occurrence coincides with
removing the found entry). -/
def eraseKey : List (String × Nat) → String → List (String × Nat)
  | [], _ => []
  | kv :: rest, sql => if kv.1 = sql then eraseKey rest sql else kv :: eraseKey rest sql

/-- Whether some cache entry holds (a shared reference to) statement `i`. -/
def idInCache : List (String × Nat) → Nat → Bool
  | [], _ => false
  | kv :: rest, i => kv.2 == i || idInCache rest i

/-- One more caller-held shared reference to statement `i`. -/
def bumpRef (f : Nat → Nat) (i : Nat) : Nat → Nat :=
  fun j => if j = i then f j + 1 else f j

/-- One caller-held shared reference to statement `i` dropped. -/
def dropRef (f : Nat → Nat) (i : Nat) : Nat → Nat :=
  fun j => if j = i then f j - 1 else f j

/-- The shared_ptr deleter: `sqlite3_finalize` runs at the moment the
reference count reaches zero, i.e. when no caller holds a reference and
no cache entry holds one. -/
def finalizeIfDead (s : DBContext) (i : Nat) : DBContext :=
  if s.callerRefs i = 0 ∧ idInCache s.statementCache i = false then
    { s with finalized := s.finalized ++ [i] }
  else s

/-- The eviction block of DBContext::getStatement (sqldb.h lines
245-254): read `lruList.back()`, erase that key from the map if present
(dropping the cache's own shared reference, which finalizes the statement
only if no caller still holds one), then `lruList.pop_back()`. -/
def evictLRU (s : DBContext) : DBContext :=
  match cacheLookup s.statementCache (s.lruList.getLast?.getD "") with
  | some evId =>
    finalizeIfDead
      { s with statementCache := eraseKey s.statementCache (s.lruList.getLast?.getD ""),
               lruList := s.lruList.dropLast } evId
  | none => { s with lruList := s.lruList.dropLast }

/-- `DBContext::getStatement` (sqldb.h lines 234-272).  `compile` is the
engine's `sqlite3_prepare_v2`, returning the diagnostic message on
failure.  A hit moves the key to the MRU front and hands the caller a new
shared reference.  A miss first evicts when at capacity, then compiles;
on prepare failure it throws `"Prepare failed: " + errmsg + " SQL: " + sql`
without inserting anything; on success it inserts the new entry at the
MRU front and returns a shared reference to it. -/
def getStatement (compile : String → Except String Unit) (s : DBContext) (sql : String) :
    Except String Nat × DBContext :=
  match cacheLookup s.statementCache sql with
  | some i =>
    (.ok i,
     { s with lruList := sql :: s.lruList.erase sql,
              callerRefs := bumpRef s.callerRefs i })
  | none =>
    let s1 := if MAX_CACHE_SIZE ≤ s.statementCache.length then evictLRU s else s
    match compile sql with
    | .error msg => (.error ("Prepare failed: " ++ msg ++ " SQL: " ++ sql), s1)
    | .ok _ =>
      let i := s1.nextStmt
      (.ok i,
       { statementCache := s1.statementCache ++ [(sql, i)],
         lruList := sql :: s1.lruList,
         callerRefs := bumpRef s1.callerRefs i,
         finalized := s1.finalized,
         nextStmt := i + 1 })

/-- A caller drops one of the shared references it holds (e.g. a
ScopedStmt going out of scope); if it was the last reference overall,
the deleter finalizes the statement. -/
def releaseStmt (s : DBContext) (i : Nat) : DBContext :=
  if s.callerRefs i = 0 then s
  else finalizeIfDead { s with callerRefs := dropRef s.callerRefs i } i

/-- An event in the life of a DBContext: a caller acquires a statement
for some SQL text (and keeps the returned shared handle), or drops a
handle it holds. -/
inductive CacheOp where
  | acquire (sql : String)
  | release (i : Nat)

def cacheStep (compile : String → Except String Unit) (s : DBContext) : CacheOp → DBContext
  | .acquire sql => (getStatement compile s sql).2
  | .release i => releaseStmt s i

/-- All states reachable by a sequence of acquisitions and releases. -/
def runCache (compile : String → Except String Unit) (ops : List CacheOp) : DBContext :=
  ops.foldl (cacheStep compile) initCtx

-- ==========================================================
-- TransactionGuard (Database::TransactionGuard, sqldb.h lines 848-877)
-- ==========================================================

/-- A call a client can make on a live TransactionGuard.  A commit call
carries the engine's verdict on the issued COMMIT: `commit true` is an
accepted COMMIT, `commit false` one the engine rejects (Database::commit
then throws, sqldb.h lines 827-831). -/
inductive TxCall where
  | commit (engineOk : Bool)
  | rollback
deriving DecidableEq, Repr

/-- The guard's only state: the `finished` flag (sqldb.h line 850). -/
structure TransactionGuard where
  finished : Bool
deriving DecidableEq, Repr

/-- `TransactionGuard::commit` (sqldb.h lines 866-870): no-op when
finished; otherwise `db.commit()` issues COMMIT to the engine
(sqldb.h lines 824-832).  If the engine accepts, `finished = true` runs;
if the engine rejects, Database::commit throws, so `finished = true` is
SKIPPED and the guard stays active (the exception propagates to the
caller).  The returned list is what is issued to the engine. -/
def TransactionGuard.commitCall (g : TransactionGuard) (engineOk : Bool) :
    TransactionGuard × List String :=
  if g.finished then (g, [])
  else if engineOk then ({ finished := true }, ["COMMIT;"])
  else (g, ["COMMIT;"])

/-- `TransactionGuard::rollback` (sqldb.h lines 872-876); Database::
rollback (lines 834-843) never throws — it reports failures on stderr —
so the transition to finished always happens. -/
def TransactionGuard.rollbackCall (g : TransactionGuard) : TransactionGuard × List String :=
  if g.finished then (g, []) else ({ finished := true }, ["ROLLBACK;"])

/-- Process a sequence of explicit commit/rollback calls, collecting the
commands issued to the engine.  (A caller that catches the exception of
a failed commit may keep using the guard, so later calls after a failed
commit are included.) -/
def guardSteps (g : TransactionGuard) : List TxCall → TransactionGuard × List String
  | [] => (g, [])
  | c :: cs =>
    let r := match c with
      | TxCall.commit engineOk => g.commitCall engineOk
      | TxCall.rollback => g.rollbackCall
    let rest := guardSteps r.1 cs
    (rest.1, r.2 ++ rest.2)

/-- `~TransactionGuard` (sqldb.h lines 856-864): issue ROLLBACK if and
only if the guard is still unfinished. -/
def guardDestructor (g : TransactionGuard) : List String :=
  if g.finished then [] else ["ROLLBACK;"]

/-- The whole lifetime of one guard: construction issues
`BEGIN TRANSACTION;` (sqldb.h lines 852-854 via beginTransaction), then
the client's explicit calls, then the destructor at scope exit. -/
def guardLifetime (calls : List TxCall) : List String :=
  let r := guardSteps { finished := false } calls
  "BEGIN TRANSACTION;" :: (r.2 ++ guardDestructor r.1)

-- ==========================================================
-- Row-level engine execution (spec-modelled) and
-- Table::update / Table::remove
-- ==========================================================

/-- Modelled from the spec: the external engine's evaluation of one
comparison predicate `column op ?` against a stored value (spec section 6,
"step(handle) -> {Row, Done, Error}"; the engine itself is out of scope).
Values are compared in their engine storage classes; LIKE is modelled
only as exact text equality (no theorem below exercises wildcards). -/
def evalOp (op : Op) (stored : SQLValue) (bound : SQLValue) : Bool :=
  match op with
  | .EQ => decide (bindValue stored = bindValue bound)
  | .NEQ => !(decide (bindValue stored = bindValue bound))
  | .GT =>
    match bindValue stored, bindValue bound with
    | .integer a, .integer b => decide (b < a)
    | .text a, .text b => decide (b < a)
    | _, _ => false
  | .LT =>
    match bindValue stored, bindValue bound with
    | .integer a, .integer b => decide (a < b)
    | .text a, .text b => decide (a < b)
    | _, _ => false
  | .LIKE =>
    match stored, bound with
    | .text a, .text b => decide (a = b)
    | _, _ => false

/-- Modelled from the spec: a stored row satisfies an AND-joined
condition list when every condition holds of it. -/
def rowMatches (r : List (String × SQLValue)) (conds : List Condition) : Bool :=
  conds.all (fun c =>
    match rowLookup r c.column with
    | some v => evalOp c.op v c.value
    | none => false)

/-- Modelled from the spec: executing a DELETE over a table's rows
removes every matching row; the engine's rows-affected count is the
number of rows removed. -/
def engineDelete (rows : List (List (String × SQLValue))) (conds : List Condition) :
    List (List (String × SQLValue)) × Nat :=
  (rows.filter (fun r => !(rowMatches r conds)),
   (rows.filter (fun r => rowMatches r conds)).length)

/-- Overwrite one column of a row (engine side of `SET col = ?`). -/
def setCol : List (String × SQLValue) → String → SQLValue → List (String × SQLValue)
  | [], k, v => [(k, v)]
  | kv :: rest, k, v => if kv.1 = k then (k, v) :: rest else kv :: setCol rest k v

/-- Apply a SET assignment list to one row. -/
def applySet (data : List (String × SQLValue)) (r : List (String × SQLValue)) :
    List (String × SQLValue) :=
  data.foldl (fun acc kv => setCol acc kv.1 kv.2) r

/-- Modelled from the spec: executing an UPDATE over a table's rows
applies the SET list to every matching row; the engine's rows-affected
count is the number of matching rows. -/
def engineUpdate (rows : List (List (String × SQLValue)))
    (data : List (String × SQLValue)) (conds : List Condition) :
    List (List (String × SQLValue)) × Nat :=
  (rows.map (fun r => if rowMatches r conds then applySet data r else r),
   (rows.filter (fun r => rowMatches r conds)).length)

/-- Everything observable about one execution of an UPDATE/DELETE: the
SQL text handed to getStatement, the bindValue calls issued, the table
contents afterwards, and the engine's rows-affected count.  The façade
never reads `affected` (the C++ never calls sqlite3_changes). -/
structure ExecTrace where
  executed : Bool
  sql : String
  binds : List (Nat × SQLValue)
  newRows : List (List (String × SQLValue))
  affected : Nat
deriving DecidableEq

/-- `Table::update` (sqldb.h lines 671-705).  Declared `void`: the
returned value is `()` in every case.  The trace records what ran;
`data.empty()` returns immediately, executing nothing. -/
def Table.update (tableName : String) (data : List (String × SQLValue))
    (w : List Condition) (rows : List (List (String × SQLValue))) :
    Unit × Option ExecTrace :=
  if data = [] then ((), none)
  else
    let res := engineUpdate rows data w
    ((), some { executed := true,
                sql := updateSQL tableName data w,
                binds := bindAt (data.map Prod.snd ++ w.map Condition.value),
                newRows := res.1,
                affected := res.2 })

/-- `Table::remove` (sqldb.h lines 708-730).  Declared `void`; always
renders and executes a DELETE, with or without conditions. -/
def Table.remove (tableName : String) (w : List Condition)
    (rows : List (List (String × SQLValue))) : Unit × ExecTrace :=
  let res := engineDelete rows w
  ((), { executed := true,
         sql := deleteSQL tableName w,
         binds := bindAt (w.map Condition.value),
         newRows := res.1,
         affected := res.2 })

-- ==========================================================
-- Helper lemmas
-- ==========================================================

theorem guardSteps_finished (cs : List TxCall) :
    guardSteps { finished := true } cs = ({ finished := true }, []) := by
  induction cs with
  | nil => rfl
  | cons c cs ih =>
    cases c <;>
      simp [guardSteps, TransactionGuard.commitCall, TransactionGuard.rollbackCall, ih]

/-- Helper for the amended C5 statement: the value the bind/read round
trip normalizes to — int widened into the long long alternative, text
truncated at the first embedded NUL, all other alternatives unchanged. -/
def roundTripNormal : SQLValue → SQLValue
  | .int i => .longlong i
  | .text s => .text (nulTruncate s)
  | v => v

/-- Whether a call transitions the guard out of Active: an accepted
COMMIT or any ROLLBACK.  A rejected COMMIT is not effective: the throw
in Database::commit skips the finished flag. -/
def effective : TxCall → Bool
  | .commit engineOk => engineOk
  | .rollback => true

/-- The engine command a call issues while the guard is still active. -/
def emitOf : TxCall → String
  | .commit _ => "COMMIT;"
  | .rollback => "ROLLBACK;"

/-- The coercions the spec permits, restricted to the six types at which
`fromSQLValue<T>` / `getCol<T>` instantiate: exact tag match or the
Int32/Int64 pair.  (The spec's Float32/Float64 pair is unrepresentable
here: `float` is not a variant alternative and `T = float` does not
instantiate, so that clause is vacuous over the actual type domain.) -/
def coercionAllowed (T tag : CppType) : Prop :=
  T = tag ∨ (T = .int ∧ tag = .longlong) ∨ (T = .longlong ∧ tag = .int)

instance (T tag : CppType) : Decidable (coercionAllowed T tag) := by
  unfold coercionAllowed; infer_instance

-- ==========================================================
-- C7
-- ==========================================================

theorem guardTail (calls : List TxCall) :
    (guardSteps { finished := false } calls).2
        ++ guardDestructor (guardSteps { finished := false } calls).1 =
      (calls.takeWhile (fun c => !effective c)).map emitOf ++
        (match calls.dropWhile (fun c => !effective c) with
         | [] => ["ROLLBACK;"]
         | c :: _ => [emitOf c]) := by
  induction calls with
  | nil => rfl
  | cons c cs ih =>
    cases c with
    | rollback =>
      simp [guardSteps, TransactionGuard.rollbackCall, guardSteps_finished,
        guardDestructor, effective, emitOf, List.takeWhile, List.dropWhile]
    | commit engineOk =>
      cases engineOk with
      | true =>
        simp [guardSteps, TransactionGuard.commitCall, guardSteps_finished,
          guardDestructor, effective, emitOf, List.takeWhile, List.dropWhile]
      | false =>
        have step : guardSteps { finished := false } (TxCall.commit false :: cs)
            = ((guardSteps { finished := false } cs).1,
               "COMMIT;" :: (guardSteps { finished := false } cs).2) := by
          simp [guardSteps, TransactionGuard.commitCall]
        have htw : (TxCall.commit false :: cs).takeWhile (fun c => !effective c)
            = TxCall.commit false :: cs.takeWhile (fun c => !effective c) := by
          simp [List.takeWhile, effective]
        have hdw : (TxCall.commit false :: cs).dropWhile (fun c => !effective c)
            = cs.dropWhile (fun c => !effective c) := by
          simp [List.dropWhile, effective]
        rw [step, htw, hdw, List.map_cons]
        show "COMMIT;" :: ((guardSteps { finished := false } cs).2
              ++ guardDestructor (guardSteps { finished := false } cs).1)
            = "COMMIT;" :: ((cs.takeWhile (fun c => !effective c)).map emitOf
              ++ (match cs.dropWhile (fun c => !effective c) with
                  | [] => ["ROLLBACK;"]
                  | c :: _ => [emitOf c]))
        exact congrArg (List.cons "COMMIT;") ih

/-- C7 counterexample: when the engine rejects the explicit COMMIT,
Database::commit throws before `finished = true` runs, so the guard
stays Active and the destructor issues the automatic ROLLBACK — the
lifetime issues BOTH a COMMIT and a ROLLBACK, not exactly one, and the
explicit commit() call does not reach a terminal state. -/
theorem transaction_guard_counterexample :
    guardLifetime [TxCall.commit false]
        = ["BEGIN TRANSACTION;", "COMMIT;", "ROLLBACK;"] ∧
      (guardSteps { finished := false } [TxCall.commit false]).1.finished = false ∧
      (guardLifetime [TxCall.commit false]).count "COMMIT;" = 1 ∧
      (guardLifetime [TxCall.commit false]).count "ROLLBACK;" = 1 := by
  refine ⟨rfl, rfl, by decide, by decide⟩

/-- C7 amended: the lifetime issues BEGIN, then one COMMIT per
engine-rejected commit call (each such call leaves the guard Active,
because the throw in Database::commit skips the finished flag), then the
first effective call's single command — an accepted COMMIT or a ROLLBACK
— after which every further call is a no-op; when no effective call
occurs, the destructor issues the automatic ROLLBACK instead.  In
particular, when the engine accepts every issued COMMIT, exactly one of
COMMIT/ROLLBACK is issued over the lifetime, decided by the first call,
with the automatic ROLLBACK when there is none. -/
theorem transaction_guard_amended :
    (∀ calls : List TxCall,
        guardLifetime calls =
          "BEGIN TRANSACTION;" ::
            ((calls.takeWhile (fun c => !effective c)).map emitOf ++
              (match calls.dropWhile (fun c => !effective c) with
               | [] => ["ROLLBACK;"]
               | c :: _ => [emitOf c]))) ∧
      (∀ calls : List TxCall, (∀ c ∈ calls, effective c = true) →
        guardLifetime calls =
          ["BEGIN TRANSACTION;",
           match calls.head? with
           | some c => emitOf c
           | none => "ROLLBACK;"]) ∧
      TransactionGuard.commitCall { finished := false } false
          = ({ finished := false }, ["COMMIT;"]) ∧
      TransactionGuard.commitCall { finished := false } true
          = ({ finished := true }, ["COMMIT;"]) := by
  refine ⟨?_, ?_, rfl, rfl⟩
  · intro calls
    simp only [guardLifetime]
    exact congrArg (List.cons "BEGIN TRANSACTION;") (guardTail calls)
  · intro calls h
    cases calls with
    | nil => rfl
    | cons c cs =>
      have hc : effective c = true := h c (List.mem_cons_self c cs)
      simp only [guardLifetime]
      rw [guardTail (c :: cs)]
      simp [List.takeWhile, List.dropWhile, hc]

/-- Witness for C7's amended statement at engine-accepted calls: one
successful commit gives BEGIN then COMMIT only; no call at all gives
BEGIN then the automatic ROLLBACK. -/
theorem transaction_guard_amended_witness :
    (∀ c ∈ [TxCall.commit true], effective c = true) ∧
      guardLifetime [TxCall.commit true] = ["BEGIN TRANSACTION;", "COMMIT;"] ∧
      guardLifetime ([] : List TxCall) = ["BEGIN TRANSACTION;", "ROLLBACK;"] :=
  ⟨by decide,
   transaction_guard_amended.2.1 [TxCall.commit true] (by decide),
   transaction_guard_amended.2.1 [] (by decide)⟩

-- ==========================================================
-- C5
-- ==========================================================

/-- C5 counterexample: binding an `int` value and reading the column
back yields the `long long` alternative, not the original tag, so the
round trip is not exact on the int tag (and Int64-to-Int32 narrowing
never occurs on this path). -/
theorem value_roundtrip_counterexample :
    getColumnValue (bindValue (SQLValue.int 5)) = SQLValue.longlong 5 ∧
      getColumnValue (bindValue (SQLValue.int 5)) ≠ SQLValue.int 5 := by
  constructor
  · rfl
  · decide

theorem takeWhile_of_all (p : Char → Bool) (l : List Char) (h : ∀ c ∈ l, p c = true) :
    l.takeWhile p = l := by
  induction l with
  | nil => rfl
  | cons c rest ih =>
    simp [List.takeWhile, h c (List.mem_cons_self c rest),
      ih (fun x hx => h x (List.mem_cons_of_mem c hx))]

theorem takeWhile_idem (p : Char → Bool) (l : List Char) :
    (l.takeWhile p).takeWhile p = l.takeWhile p := by
  induction l with
  | nil => rfl
  | cons c rest ih =>
    cases hp : p c with
    | false => simp [List.takeWhile, hp]
    | true => simp [List.takeWhile, hp, ih]

theorem nulTruncate_idem (s : String) : nulTruncate (nulTruncate s) = nulTruncate s := by
  unfold nulTruncate
  exact congrArg String.mk (takeWhile_idem _ s.data)

theorem nulTruncate_of_no_nul (s : String) (h : ∀ c ∈ s.data, c ≠ Char.ofNat 0) :
    nulTruncate s = s := by
  unfold nulTruncate
  have hta : s.data.takeWhile (fun c => !(c == Char.ofNat 0)) = s.data :=
    takeWhile_of_all _ _ (fun c hc => by simp [h c hc])
  rw [hta]

/-- C5 amended: the bind/read round trip reproduces payloads and tags
exactly for null, long long, double and blob values; an int value comes
back as the same number under the long long tag (the engine stores all
integers in one 64-bit class); text is truncated at the first embedded
NUL character — bind_text is called with c_str() and length -1, and the
read-back uses the NUL-terminated string constructor — and text without
an embedded NUL round-trips exactly.  Nothing errors, and the Int64 to
Int32 / Float64 to Float32 narrowings never occur on this path. -/
theorem value_roundtrip_amended :
    (∀ v : SQLValue, getColumnValue (bindValue v) = roundTripNormal v) ∧
      (∀ s : String, (∀ c ∈ s.data, c ≠ Char.ofNat 0) → nulTruncate s = s) ∧
      (∀ v : SQLValue, v.tag ≠ CppType.int → v.tag ≠ CppType.text →
        getColumnValue (bindValue v) = v) := by
  refine ⟨?_, nulTruncate_of_no_nul, ?_⟩
  · intro v
    cases v with
    | text s =>
      show SQLValue.text (nulTruncate (nulTruncate s)) = SQLValue.text (nulTruncate s)
      rw [nulTruncate_idem]
    | null => rfl
    | int i => rfl
    | longlong i => rfl
    | double d => rfl
    | blob b => rfl
  · intro v h1 h2
    cases v with
    | int i => exact absurd rfl h1
    | text s => exact absurd rfl h2
    | null => rfl
    | longlong i => rfl
    | double d => rfl
    | blob b => rfl

/-- Witness for C5's amended statement: NUL-free text round-trips
exactly, and a blob (neither int- nor text-tagged) round-trips exactly
even with an embedded zero byte. -/
theorem value_roundtrip_amended_witness :
    (∀ c ∈ ("Alice" : String).data, c ≠ Char.ofNat 0) ∧
      nulTruncate "Alice" = "Alice" ∧
      getColumnValue (bindValue (SQLValue.text "Alice")) = SQLValue.text "Alice" ∧
      (SQLValue.blob [7, 0, 9]).tag ≠ CppType.int ∧
      (SQLValue.blob [7, 0, 9]).tag ≠ CppType.text ∧
      getColumnValue (bindValue (SQLValue.blob [7, 0, 9])) = SQLValue.blob [7, 0, 9] :=
  ⟨by decide,
   value_roundtrip_amended.2.1 "Alice" (by decide),
   by decide,
   by decide, by decide,
   value_roundtrip_amended.2.2 (SQLValue.blob [7, 0, 9]) (by decide) (by decide)⟩

-- ==========================================================
-- C10
-- ==========================================================

/-- C10: remove with an empty condition list renders a DELETE with no
WHERE clause, binds nothing, executes it, and every row of the table is
deleted (the engine reports all rows affected); it is neither an error
nor a no-op, whereas update with an empty data set executes nothing. -/
theorem remove_empty_condition_deletes_all (t : String)
    (rows : List (List (String × SQLValue))) :
    (Table.remove t [] rows).2.sql = "DELETE FROM " ++ quoteIdentifier t ∧
      (Table.remove t [] rows).2.binds = [] ∧
      (Table.remove t [] rows).2.executed = true ∧
      (Table.remove t [] rows).2.newRows = [] ∧
      (Table.remove t [] rows).2.affected = rows.length ∧
      (Table.update t [] [] rows).2 = none := by
  refine ⟨?_, rfl, rfl, ?_, ?_, rfl⟩
  · simp [Table.remove, deleteSQL, whereSQL]
  · simp [Table.remove, engineDelete, rowMatches]
  · simp [Table.remove, engineDelete, rowMatches]

-- ==========================================================
-- C9
-- ==========================================================

/-- C9: the coercions fromSQLValue and getCol succeed exactly when the
requested type equals the stored tag or the pair is the permitted
Int32/Int64 pair (the Float32/Float64 clause of the spec is vacuous:
float is not a variant alternative and does not instantiate); every
other combination, in particular Text to a numeric type, fails with the
type-mismatch error rather than parsing. -/
theorem coercion_requires_matching_tag :
    (∀ (T : CppType) (v : SQLValue) (c : String),
        isOkE (fromSQLValue T v c) = true ↔ coercionAllowed T v.tag) ∧
      (∀ (T : CppType) (v : SQLValue) (c : String), ¬ coercionAllowed T v.tag →
        fromSQLValue T v c = Except.error ("Column type mismatch for column: " ++ c)) ∧
      (∀ (T : CppType) (row : List (String × SQLValue)) (k : String) (v : SQLValue),
        rowLookup row k = some v →
        (isOkE (getCol T row k) = true ↔ coercionAllowed T v.tag)) ∧
      (∀ (T : CppType) (row : List (String × SQLValue)) (k : String) (v : SQLValue),
        rowLookup row k = some v → ¬ coercionAllowed T v.tag →
        getCol T row k = Except.error ("Column type mismatch: " ++ k)) ∧
      (∀ (T : CppType) (row : List (String × SQLValue)) (k : String),
        rowLookup row k = none →
        getCol T row k = Except.error ("Column not found: " ++ k)) := by
  refine ⟨?_, ?_, ?_, ?_, ?_⟩
  · intro T v c
    cases T <;> cases v <;>
      simp [fromSQLValue, SQLValue.tag, coercionAllowed, isOkE]
  · intro T v c hna
    cases T <;> cases v <;>
      simp [fromSQLValue, SQLValue.tag, coercionAllowed, isOkE] <;>
      simp [coercionAllowed, SQLValue.tag] at hna
  · intro T row k v hlk
    rw [getCol, hlk]
    cases T <;> cases v <;>
      simp [SQLValue.tag, coercionAllowed, isOkE]
  · intro T row k v hlk hna
    rw [getCol, hlk]
    cases T <;> cases v <;>
      simp [SQLValue.tag, coercionAllowed, isOkE] <;>
      simp [coercionAllowed, SQLValue.tag] at hna
  · intro T row k hlk
    rw [getCol, hlk]

/-- Witness for C9 at concrete inputs: coercing Text to a numeric type
fails with the type-mismatch error, both through fromSQLValue and
through getCol on a concrete row. -/
theorem coercion_requires_matching_tag_witness :
    (¬ coercionAllowed CppType.int (SQLValue.text "5").tag) ∧
      fromSQLValue CppType.int (SQLValue.text "5") "score"
        = Except.error "Column type mismatch for column: score" ∧
      rowLookup [("a", SQLValue.text "x")] "a" = some (SQLValue.text "x") ∧
      getCol CppType.longlong [("a", SQLValue.text "x")] "a"
        = Except.error "Column type mismatch: a" ∧
      rowLookup [("a", SQLValue.text "x")] "b" = none ∧
      getCol CppType.int [("a", SQLValue.text "x")] "b"
        = Except.error "Column not found: b" :=
  ⟨by decide,
   coercion_requires_matching_tag.2.1 CppType.int (SQLValue.text "5") "score" (by decide),
   by decide,
   coercion_requires_matching_tag.2.2.2.1 CppType.longlong [("a", SQLValue.text "x")] "a"
     (SQLValue.text "x") (by decide) (by decide),
   by decide,
   coercion_requires_matching_tag.2.2.2.2 CppType.int [("a", SQLValue.text "x")] "b" (by decide)⟩

-- ==========================================================
-- Counting lemmas for quoting and placeholders
-- ==========================================================

theorem countChar_append (s t : String) (c : Char) :
    countChar (s ++ t) c = countChar s c + countChar t c := by
  simp [countChar, String.data_append]

theorem count_escapeQuotes_quote (cs : List Char) :
    (escapeQuotes cs).count '"' = 2 * cs.count '"' := by
  induction cs with
  | nil => rfl
  | cons c rest ih =>
    by_cases hc : c = '"'
    · subst hc
      simp [escapeQuotes, ih, List.count_cons]
      ring
    · simp [escapeQuotes, hc, ih, List.count_cons]

theorem count_escapeQuotes_ne (cs : List Char) (c : Char) (h : c ≠ '"') :
    (escapeQuotes cs).count c = cs.count c := by
  induction cs with
  | nil => rfl
  | cons x rest ih =>
    by_cases hx : x = '"'
    · subst hx
      simp [escapeQuotes, ih, List.count_cons, Ne.symm h]
    · simp [escapeQuotes, hx, ih, List.count_cons]

theorem escapeQuotes_of_no_quote (cs : List Char) (h : cs.count '"' = 0) :
    escapeQuotes cs = cs := by
  induction cs with
  | nil => rfl
  | cons x rest ih =>
    rw [List.count_cons] at h
    by_cases hx : x = '"'
    · subst hx; simp at h
    · simp [escapeQuotes, hx]
      exact ih (by omega)

theorem countChar_quoteIdentifier_quote (s : String) :
    countChar (quoteIdentifier s) '"' = 2 * countChar s '"' + 2 := by
  cases s with
  | mk data =>
    simp [quoteIdentifier, countChar, String.data_append, count_escapeQuotes_quote]

theorem countChar_quoteIdentifier_ne (s : String) (c : Char) (h : c ≠ '"') :
    countChar (quoteIdentifier s) c = countChar s c := by
  cases s with
  | mk data =>
    simp [quoteIdentifier, countChar, String.data_append,
      count_escapeQuotes_ne data c h, List.count_cons, h]

theorem quoteIdentifier_of_no_quote (s : String) (h : countChar s '"' = 0) :
    quoteIdentifier s = "\"" ++ s ++ "\"" := by
  cases s with
  | mk data =>
    simp [quoteIdentifier, countChar] at h ⊢
    rw [escapeQuotes_of_no_quote data h]

-- ==========================================================
-- C4
-- ==========================================================

/-- The identifier-emission rule exactly as the specification words it
(section 4.2 / claim C4): emitted verbatim when the string contains a
space or a parenthesis, otherwise quoted whole by quoteIdentifier.
Stated only for comparison against the source's selectCol. -/
def specEmitIdentifier (col : String) : String :=
  if col.data.any (fun c => c = ' ' || c = '(' || c = ')') then col else quoteIdentifier col

/-- C4 counterexample: the projected column `a.b` contains no space or
parenthesis, so the claim says it is quoted whole as `"a.b"`; the code
instead splits it at the dot and quotes the parts separately. -/
theorem identifier_quoting_counterexample :
    selectCol "a.b" = "\"a\".\"b\"" ∧
      specEmitIdentifier "a.b" = "\"a.b\"" ∧
      selectCol "a.b" ≠ specEmitIdentifier "a.b" := by
  refine ⟨by decide, by decide, by decide⟩

/-- C4 amended: identifiers containing a space or an opening parenthesis
are emitted verbatim; otherwise HAVING columns are quoted whole, while
projected columns and the ORDER BY target are split at the first dot
with both parts quoted separately (quoted whole only when dot-free);
WHERE-condition identifiers, table names and group-by columns are always
quoted; quoting wraps in double quotes and doubles every embedded
double-quote character. -/
theorem strData_isEmpty_false (s : String) (h : s ≠ "") : s.data.isEmpty = false := by
  cases s with
  | mk data =>
    cases data with
    | nil => exact absurd rfl h
    | cons x xs => rfl

/-- C4 amended: identifiers containing a space or an opening parenthesis
are emitted verbatim; otherwise HAVING columns are quoted whole, while
projected columns and the ORDER BY target containing a dot are split at
the first dot with both parts quoted separately and are quoted whole
only when dot-free; WHERE-condition identifiers, group-by columns, and
the table names of FROM, UPDATE, DELETE FROM and JOIN are always quoted;
quoting wraps in double quotes and doubles every embedded double-quote
character. -/
theorem identifier_quoting_amended :
    (∀ s : String, countChar (quoteIdentifier s) '"' = 2 * countChar s '"' + 2) ∧
      (∀ s : String, countChar s '"' = 0 → quoteIdentifier s = "\"" ++ s ++ "\"") ∧
      (∀ col : String, isRawExpr col = true → selectCol col = col) ∧
      (∀ col : String, isRawExpr col = false → col.data.contains '.' = false →
        selectCol col = quoteIdentifier col) ∧
      (∀ col : String, isRawExpr col = false → col.data.contains '.' = true →
        selectCol col = quoteIdentifier (dotBefore col) ++ "." ++ quoteIdentifier (dotAfter col)) ∧
      (∀ c : Condition, isRawExpr c.column = true →
        havingCondSQL c = c.column ++ " " ++ c.op.getOpString ++ " ?") ∧
      (∀ c : Condition, isRawExpr c.column = false →
        havingCondSQL c = quoteIdentifier c.column ++ " " ++ c.op.getOpString ++ " ?") ∧
      (∀ c : Condition, condSQL c = quoteIdentifier c.column ++ " " ++ c.op.getOpString ++ " ?") ∧
      (∀ g : List String, g ≠ [] →
        groupBySQL g = " GROUP BY " ++ loopJoin ", " (g.map quoteIdentifier)) ∧
      (∀ (ob : String) (d : Bool), ob ≠ "" → isRawExpr ob = true →
        orderBySQL ob d = " ORDER BY " ++ ob ++ (if d then " DESC" else " ASC")) ∧
      (∀ (ob : String) (d : Bool), ob ≠ "" → isRawExpr ob = false →
        ob.data.contains '.' = false →
        orderBySQL ob d = " ORDER BY " ++ quoteIdentifier ob
          ++ (if d then " DESC" else " ASC")) ∧
      (∀ (ob : String) (d : Bool), ob ≠ "" → isRawExpr ob = false →
        ob.data.contains '.' = true →
        orderBySQL ob d = " ORDER BY " ++ quoteIdentifier (dotBefore ob) ++ "."
          ++ quoteIdentifier (dotAfter ob) ++ (if d then " DESC" else " ASC")) ∧
      (∀ (t : String) (w : List Condition) (opts : QueryOptions),
        selectSQL t w opts = "SELECT " ++ selectListSQL opts.columns ++ " FROM "
          ++ quoteIdentifier t ++ joinsSQL opts.joins ++ whereSQL w
          ++ groupBySQL opts.groupBy ++ havingSQL opts.having
          ++ orderBySQL opts.orderBy opts.orderDesc
          ++ limitSQL opts.limit ++ offsetSQL opts.offset ++ ";") ∧
      (∀ t : String, selectSQL t [] ⟨[], [], [], [], "", false, -1, -1⟩
        = "SELECT * FROM " ++ quoteIdentifier t ++ ";") ∧
      (∀ (t : String) (data : List (String × SQLValue)) (w : List Condition),
        updateSQL t data w = "UPDATE " ++ quoteIdentifier t ++ " SET "
          ++ updateSetSQL data ++ whereSQL w) ∧
      (∀ (t : String) (w : List Condition),
        deleteSQL t w = "DELETE FROM " ++ quoteIdentifier t ++ whereSQL w) ∧
      (∀ j : JoinClause, joinSQL j = " " ++ j.type.getTypeString ++ " "
        ++ quoteIdentifier j.table ++ " ON " ++ j.onCondition) := by
  refine ⟨countChar_quoteIdentifier_quote, quoteIdentifier_of_no_quote, ?_, ?_, ?_, ?_, ?_,
    fun c => rfl, ?_, ?_, ?_, ?_, fun t w opts => rfl, ?_, fun t data w => rfl,
    fun t w => rfl, fun j => rfl⟩
  · intro col h
    simp [selectCol, h]
  · intro col h hdot
    unfold selectCol
    rw [h, hdot]
    simp
  · intro col h hdot
    unfold selectCol
    rw [h, hdot]
    simp
  · intro c h
    simp [havingCondSQL, h]
  · intro c h
    simp [havingCondSQL, h]
  · intro g hg
    simp [groupBySQL, hg]
  · intro ob d hob hraw
    unfold orderBySQL
    rw [strData_isEmpty_false ob hob, hraw]
    simp
  · intro ob d hob hraw hdot
    unfold orderBySQL
    rw [strData_isEmpty_false ob hob, hraw, hdot]
    simp
  · intro ob d hob hraw hdot
    unfold orderBySQL
    rw [strData_isEmpty_false ob hob, hraw, hdot]
    simp
  · intro t
    show "SELECT " ++ selectListSQL [] ++ " FROM " ++ quoteIdentifier t ++ joinsSQL []
        ++ whereSQL [] ++ groupBySQL [] ++ havingSQL [] ++ orderBySQL "" false
        ++ limitSQL (-1) ++ offsetSQL (-1) ++ ";"
      = "SELECT * FROM " ++ quoteIdentifier t ++ ";"
    simp [selectListSQL, joinsSQL, whereSQL, groupBySQL, havingSQL, orderBySQL,
      limitSQL, offsetSQL, String.join]

/-- Witness for C4's amended statement at concrete inputs: a raw
aggregate expression stays verbatim, a plain name is quoted whole, a
dotted name is split (in the SELECT list and in ORDER BY), HAVING quotes
a plain column, and a concrete SELECT quotes its table name. -/
theorem identifier_quoting_amended_witness :
    quoteIdentifier "say \"hi\"" = "\"say \"\"hi\"\"\"" ∧
      countChar "name" '"' = 0 ∧
      quoteIdentifier "name" = "\"name\"" ∧
      isRawExpr "COUNT(posts.id)" = true ∧
      selectCol "COUNT(posts.id)" = "COUNT(posts.id)" ∧
      isRawExpr "users.username" = false ∧
      selectCol "users.username" = "\"users\".\"username\"" ∧
      havingCondSQL { column := "score", op := Op.GT, value := SQLValue.longlong 1 }
        = "\"score\" > ?" ∧
      orderBySQL "LENGTH(name)" true = " ORDER BY LENGTH(name) DESC" ∧
      orderBySQL "score" false = " ORDER BY \"score\" ASC" ∧
      orderBySQL "users.score" true = " ORDER BY \"users\".\"score\" DESC" ∧
      selectSQL "users" [] ⟨[], [], [], [], "", false, -1, -1⟩
        = "SELECT * FROM \"users\";" :=
  ⟨by decide,
   by decide,
   identifier_quoting_amended.2.1 "name" (by decide),
   by decide,
   identifier_quoting_amended.2.2.1 "COUNT(posts.id)" (by decide),
   by decide,
   identifier_quoting_amended.2.2.2.2.1 "users.username" (by decide) (by decide),
   identifier_quoting_amended.2.2.2.2.2.2.1
     { column := "score", op := Op.GT, value := SQLValue.longlong 1 } (by decide),
   identifier_quoting_amended.2.2.2.2.2.2.2.2.2.1 "LENGTH(name)" true
     (by decide) (by decide),
   identifier_quoting_amended.2.2.2.2.2.2.2.2.2.2.1 "score" false
     (by decide) (by decide) (by decide),
   identifier_quoting_amended.2.2.2.2.2.2.2.2.2.2.2.1 "users.score" true
     (by decide) (by decide) (by decide),
   identifier_quoting_amended.2.2.2.2.2.2.2.2.2.2.2.2.2.1 "users"⟩

-- ==========================================================
-- C3
-- ==========================================================

theorem loopJoin_eq_foldr (sep : String) (x : String) (xs : List String) :
    loopJoin sep (x :: xs) = x ++ (xs.map (fun y => sep ++ y)).foldr (fun a b => a ++ b) "" := by
  induction xs generalizing x with
  | nil => simp [loopJoin, String.append_empty]
  | cons y ys ih =>
    simp only [loopJoin, List.map_cons, List.foldr_cons, ih y, String.append_assoc]

theorem countChar_opString (op : Op) : countChar op.getOpString '?' = 0 := by
  cases op <;> decide

theorem countChar_condSQL (c : Condition) (h : countChar c.column '?' = 0) :
    countChar (condSQL c) '?' = 1 := by
  have hq : ('?' : Char) ≠ '"' := by decide
  rw [condSQL, countChar_append, countChar_append, countChar_append,
    countChar_quoteIdentifier_ne c.column '?' hq, h, countChar_opString]
  decide

theorem countChar_havingCondSQL (c : Condition) (h : countChar c.column '?' = 0) :
    countChar (havingCondSQL c) '?' = 1 := by
  have hq : ('?' : Char) ≠ '"' := by decide
  rw [havingCondSQL]
  by_cases hr : isRawExpr c.column
  · rw [if_pos hr, countChar_append, countChar_append, countChar_append, h, countChar_opString]
    decide
  · rw [if_neg hr, countChar_append, countChar_append, countChar_append,
      countChar_quoteIdentifier_ne c.column '?' hq, h, countChar_opString]
    decide

theorem countChar_loopJoin_condSQL (w : List Condition)
    (h : ∀ c ∈ w, countChar c.column '?' = 0) :
    countChar (loopJoin " AND " (w.map condSQL)) '?' = w.length := by
  induction w with
  | nil => rfl
  | cons c cs ih =>
    cases cs with
    | nil =>
      simp only [List.map_cons, List.map_nil, loopJoin, List.length_cons, List.length_nil]
      exact countChar_condSQL c (h c (by simp))
    | cons d ds =>
      have h1 : countChar (condSQL c) '?' = 1 := countChar_condSQL c (h c (by simp))
      have h2 := ih (fun x hx => h x (List.mem_cons_of_mem c hx))
      simp only [List.map_cons] at h2 ⊢
      rw [loopJoin, countChar_append, countChar_append, h1, h2]
      · have hA : countChar " AND " '?' = 0 := by decide
        rw [hA]
        simp only [List.length_cons]
        omega
      · simp

theorem countChar_loopJoin_havingCondSQL (w : List Condition)
    (h : ∀ c ∈ w, countChar c.column '?' = 0) :
    countChar (loopJoin " AND " (w.map havingCondSQL)) '?' = w.length := by
  induction w with
  | nil => rfl
  | cons c cs ih =>
    cases cs with
    | nil =>
      simp only [List.map_cons, List.map_nil, loopJoin, List.length_cons, List.length_nil]
      exact countChar_havingCondSQL c (h c (by simp))
    | cons d ds =>
      have h1 : countChar (havingCondSQL c) '?' = 1 := countChar_havingCondSQL c (h c (by simp))
      have h2 := ih (fun x hx => h x (List.mem_cons_of_mem c hx))
      simp only [List.map_cons] at h2 ⊢
      rw [loopJoin, countChar_append, countChar_append, h1, h2]
      · have hA : countChar " AND " '?' = 0 := by decide
        rw [hA]
        simp only [List.length_cons]
        omega
      · simp

theorem bindSeq_eq (vals : List SQLValue) :
    ∀ n, bindSeq vals n = (n + vals.length, numberedFrom n vals) := by
  induction vals with
  | nil => intro n; simp [bindSeq, numberedFrom]
  | cons v vs ih =>
    intro n
    rw [bindSeq, numberedFrom, ih (n + 1)]
    refine Prod.ext ?_ rfl
    simp [List.length_cons]
    omega

theorem numberedFrom_append (a b : List SQLValue) :
    ∀ n, numberedFrom n (a ++ b) = numberedFrom n a ++ numberedFrom (n + a.length) b := by
  induction a with
  | nil => intro n; simp [numberedFrom]
  | cons v vs ih =>
    intro n
    have h1 : (v :: vs) ++ b = v :: (vs ++ b) := rfl
    rw [h1, numberedFrom, numberedFrom, ih (n + 1)]
    simp only [List.cons_append, List.length_cons]
    have heq : n + 1 + vs.length = n + (vs.length + 1) := by omega
    rw [heq]

/-- C3: the rendered WHERE clause is the conditions' predicates joined by
AND in list order, likewise HAVING; each predicate carries exactly one
`?` placeholder (N for a WHERE list of length N, M for HAVING); and the
parameters are bound at consecutive indices starting at 1, WHERE
condition values first, then HAVING condition values. -/
theorem select_where_having_parameters :
    (∀ (c : Condition) (cs : List Condition),
        whereSQL (c :: cs) = " WHERE " ++ (condSQL c ++
          ((cs.map condSQL).map (fun y => " AND " ++ y)).foldr (fun a b => a ++ b) "")) ∧
      (∀ (c : Condition) (cs : List Condition),
        havingSQL (c :: cs) = " HAVING " ++ (havingCondSQL c ++
          ((cs.map havingCondSQL).map (fun y => " AND " ++ y)).foldr (fun a b => a ++ b) "")) ∧
      (∀ w : List Condition, (∀ c ∈ w, countChar c.column '?' = 0) →
        countChar (whereSQL w) '?' = w.length) ∧
      (∀ h : List Condition, (∀ c ∈ h, countChar c.column '?' = 0) →
        countChar (havingSQL h) '?' = h.length) ∧
      (∀ (w : List Condition) (opts : QueryOptions),
        selectBinds w opts =
          numberedFrom 1 (w.map Condition.value ++ opts.having.map Condition.value)) := by
  refine ⟨?_, ?_, ?_, ?_, ?_⟩
  · intro c cs
    rw [whereSQL]
    simp only [List.isEmpty_cons, if_false, List.map_cons, loopJoin_eq_foldr, Bool.false_eq_true]
  · intro c cs
    rw [havingSQL]
    simp only [List.isEmpty_cons, if_false, List.map_cons, loopJoin_eq_foldr, Bool.false_eq_true]
  · intro w h
    cases w with
    | nil => rfl
    | cons c cs =>
      rw [whereSQL]
      simp only [List.isEmpty_cons, Bool.false_eq_true, if_false]
      rw [countChar_append, countChar_loopJoin_condSQL (c :: cs) h]
      have : countChar " WHERE " '?' = 0 := by decide
      omega
  · intro w h
    cases w with
    | nil => rfl
    | cons c cs =>
      rw [havingSQL]
      simp only [List.isEmpty_cons, Bool.false_eq_true, if_false]
      rw [countChar_append, countChar_loopJoin_havingCondSQL (c :: cs) h]
      have : countChar " HAVING " '?' = 0 := by decide
      omega
  · intro w opts
    rw [selectBinds]
    simp [bindSeq_eq, numberedFrom_append, List.length_map]

/-- Witness for C3 at concrete condition lists: two WHERE conditions
yield two placeholders, one HAVING condition (a raw aggregate column)
yields one, and the binds are numbered 1..3 with WHERE values first. -/
theorem select_where_having_parameters_witness :
    countChar (whereSQL [⟨"username", Op.EQ, SQLValue.text "Bob"⟩,
        ⟨"score", Op.GT, SQLValue.longlong 90⟩]) '?' = 2 ∧
      countChar (havingSQL [⟨"COUNT(posts.id)", Op.GT, SQLValue.longlong 1⟩]) '?' = 1 ∧
      selectBinds [⟨"username", Op.EQ, SQLValue.text "Bob"⟩,
          ⟨"score", Op.GT, SQLValue.longlong 90⟩]
          ⟨[], [], [], [⟨"COUNT(posts.id)", Op.GT, SQLValue.longlong 1⟩], "", false, -1, -1⟩ =
        [(1, SQLValue.text "Bob"), (2, SQLValue.longlong 90), (3, SQLValue.longlong 1)] :=
  ⟨select_where_having_parameters.2.2.1 _ (by decide),
   select_where_having_parameters.2.2.2.1 _ (by decide),
   by decide⟩

-- ==========================================================
-- C8
-- ==========================================================

theorem enumFrom_map_succ (vals : List SQLValue) :
    ∀ n, (List.enumFrom n vals).map (fun p => (p.1 + 1, p.2)) = numberedFrom (n + 1) vals := by
  induction vals with
  | nil => intro n; rfl
  | cons v vs ih =>
    intro n
    simp only [List.enumFrom, List.map_cons, numberedFrom, ih (n + 1), List.cons.injEq]

theorem bindAt_eq_numberedFrom (vals : List SQLValue) : bindAt vals = numberedFrom 1 vals := by
  rw [bindAt]
  exact enumFrom_map_succ vals 0

/-- C8 counterexample: at concrete inputs where the engine's affected
count is 1 and 0 respectively, update (and remove) return the identical
value `()` in both runs — the C++ members are declared void and never
read sqlite3_changes — so the return value cannot be the number of rows
affected. -/
theorem update_remove_return_counterexample :
    (Table.update "t" [("score", SQLValue.longlong 2)] [⟨"id", Op.EQ, SQLValue.longlong 1⟩]
        [[("id", SQLValue.longlong 1)]]).1
      = (Table.update "t" [("score", SQLValue.longlong 2)]
          [⟨"id", Op.EQ, SQLValue.longlong 1⟩] []).1 ∧
      Option.map ExecTrace.affected (Table.update "t" [("score", SQLValue.longlong 2)]
        [⟨"id", Op.EQ, SQLValue.longlong 1⟩] [[("id", SQLValue.longlong 1)]]).2 = some 1 ∧
      Option.map ExecTrace.affected (Table.update "t" [("score", SQLValue.longlong 2)]
        [⟨"id", Op.EQ, SQLValue.longlong 1⟩] []).2 = some 0 ∧
      (Table.remove "t" [⟨"id", Op.EQ, SQLValue.longlong 1⟩]
        [[("id", SQLValue.longlong 1)]]).2.affected = 1 ∧
      (Table.remove "t" [⟨"id", Op.EQ, SQLValue.longlong 1⟩] []).2.affected = 0 ∧
      (Table.remove "t" [⟨"id", Op.EQ, SQLValue.longlong 1⟩]
          [[("id", SQLValue.longlong 1)]]).1
        = (Table.remove "t" [⟨"id", Op.EQ, SQLValue.longlong 1⟩] []).1 ∧
      (1 : Nat) ≠ 0 := by
  refine ⟨rfl, by decide, by decide, by decide, by decide, rfl, by decide⟩

/-- C8 amended: update and remove return no value (they are void): the
returned value is independent of the table contents and carries no
affected count; a nonempty update executes the rendered UPDATE binding
the data values then the condition values at indices 1..K, and remove
executes the rendered DELETE; the engine's rows-affected count is
produced but never returned. -/
theorem update_remove_return_void :
    (∀ (t : String) (data : List (String × SQLValue)) (w : List Condition)
        (rows rows2 : List (List (String × SQLValue))),
      (Table.update t data w rows).1 = (Table.update t data w rows2).1) ∧
      (∀ (t : String) (w : List Condition) (rows rows2 : List (List (String × SQLValue))),
        (Table.remove t w rows).1 = (Table.remove t w rows2).1) ∧
      (∀ vals : List SQLValue, bindAt vals = numberedFrom 1 vals) ∧
      (∀ (t : String) (data : List (String × SQLValue)) (w : List Condition)
          (rows : List (List (String × SQLValue))), data ≠ [] →
        (Table.update t data w rows).2 = some ⟨true, updateSQL t data w,
          bindAt (data.map Prod.snd ++ w.map Condition.value),
          (engineUpdate rows data w).1, (engineUpdate rows data w).2⟩) ∧
      (∀ (t : String) (w : List Condition) (rows : List (List (String × SQLValue))),
        (Table.remove t w rows).2.affected = (engineDelete rows w).2 ∧
        (Table.remove t w rows).2.sql = deleteSQL t w ∧
        (Table.remove t w rows).2.newRows = (engineDelete rows w).1) := by
  refine ⟨fun t data w rows rows2 => rfl, fun t w rows rows2 => rfl,
    bindAt_eq_numberedFrom, ?_, fun t w rows => ⟨rfl, rfl, rfl⟩⟩
  intro t data w rows hd
  simp [Table.update, hd]

/-- Witness for C8's amended statement: a concrete one-column update on
a one-row table executes with the data value bound at index 1 and the
condition value at index 2. -/
theorem update_remove_return_void_witness :
    ([("score", SQLValue.longlong 2)] : List (String × SQLValue)) ≠ [] ∧
      (Table.update "users" [("score", SQLValue.longlong 2)]
          [⟨"id", Op.EQ, SQLValue.longlong 1⟩] [[("id", SQLValue.longlong 1)]]).2
        = some ⟨true, updateSQL "users" [("score", SQLValue.longlong 2)]
            [⟨"id", Op.EQ, SQLValue.longlong 1⟩],
            bindAt [SQLValue.longlong 2, SQLValue.longlong 1],
            (engineUpdate [[("id", SQLValue.longlong 1)]] [("score", SQLValue.longlong 2)]
              [⟨"id", Op.EQ, SQLValue.longlong 1⟩]).1,
            (engineUpdate [[("id", SQLValue.longlong 1)]] [("score", SQLValue.longlong 2)]
              [⟨"id", Op.EQ, SQLValue.longlong 1⟩]).2⟩ :=
  ⟨by decide,
   update_remove_return_void.2.2.2.1 "users" [("score", SQLValue.longlong 2)]
     [⟨"id", Op.EQ, SQLValue.longlong 1⟩] [[("id", SQLValue.longlong 1)]] (by decide)⟩

-- ==========================================================
-- C6
-- ==========================================================

theorem eraseKey_of_absent (c : List (String × Nat)) (k : String)
    (h : cacheLookup c k = none) : eraseKey c k = c := by
  induction c with
  | nil => rfl
  | cons kv rest ih =>
    rw [cacheLookup] at h
    by_cases h1 : kv.1 = k
    · rw [if_pos h1] at h; cases h
    · rw [if_neg h1] at h
      rw [eraseKey, if_neg h1, ih h]

theorem cacheLookup_eraseKey_none (c : List (String × Nat)) (sql k : String)
    (h : cacheLookup c sql = none) : cacheLookup (eraseKey c k) sql = none := by
  induction c with
  | nil => rfl
  | cons kv rest ih =>
    rw [cacheLookup] at h
    by_cases h1 : kv.1 = sql
    · rw [if_pos h1] at h; cases h
    · rw [if_neg h1] at h
      rw [eraseKey]
      by_cases h2 : kv.1 = k
      · rw [if_pos h2]; exact ih h
      · rw [if_neg h2, cacheLookup, if_neg h1]; exact ih h

theorem cacheLookup_append_ne (c : List (String × Nat)) (sql q : String) (i : Nat)
    (hne : q ≠ sql) (h : cacheLookup c sql = none) :
    cacheLookup (c ++ [(q, i)]) sql = none := by
  induction c with
  | nil => simp [cacheLookup, hne]
  | cons kv rest ih =>
    rw [cacheLookup] at h
    by_cases h1 : kv.1 = sql
    · rw [if_pos h1] at h; cases h
    · rw [if_neg h1] at h
      rw [List.cons_append, cacheLookup, if_neg h1]
      exact ih h

theorem cacheLookup_append_self (c : List (String × Nat)) (sql : String) (i : Nat)
    (h : cacheLookup c sql = none) : cacheLookup (c ++ [(sql, i)]) sql = some i := by
  induction c with
  | nil => simp [cacheLookup]
  | cons kv rest ih =>
    rw [cacheLookup] at h
    by_cases h1 : kv.1 = sql
    · rw [if_pos h1] at h; cases h
    · rw [if_neg h1] at h
      rw [List.cons_append, cacheLookup, if_neg h1]
      exact ih h

theorem releaseStmt_cache (s : DBContext) (i : Nat) :
    (releaseStmt s i).statementCache = s.statementCache := by
  rw [releaseStmt]
  by_cases h : s.callerRefs i = 0
  · rw [if_pos h]
  · rw [if_neg h, finalizeIfDead]
    split_ifs <;> rfl

theorem evictLRU_cache (s : DBContext) :
    (evictLRU s).statementCache = eraseKey s.statementCache (s.lruList.getLast?.getD "") := by
  unfold evictLRU
  split
  · rw [finalizeIfDead]
    split_ifs <;> rfl
  · next heq => exact (eraseKey_of_absent _ _ heq).symm

theorem evictLRU_lru (s : DBContext) :
    (evictLRU s).lruList = s.lruList.dropLast := by
  unfold evictLRU
  split
  · rw [finalizeIfDead]
    split_ifs <;> rfl
  · rfl

theorem evictLRU_next (s : DBContext) :
    (evictLRU s).nextStmt = s.nextStmt := by
  unfold evictLRU
  split
  · rw [finalizeIfDead]
    split_ifs <;> rfl
  · rfl

theorem getStatement_hit (compile : String → Except String Unit) (s : DBContext)
    (sql : String) (i : Nat) (hl : cacheLookup s.statementCache sql = some i) :
    getStatement compile s sql =
      (Except.ok i, { s with lruList := sql :: s.lruList.erase sql,
                             callerRefs := bumpRef s.callerRefs i }) := by
  simp only [getStatement, hl]

theorem getStatement_miss_error (compile : String → Except String Unit) (s : DBContext)
    (sql msg : String) (hl : cacheLookup s.statementCache sql = none)
    (hc : compile sql = Except.error msg) :
    getStatement compile s sql =
      (Except.error ("Prepare failed: " ++ msg ++ " SQL: " ++ sql),
       if MAX_CACHE_SIZE ≤ s.statementCache.length then evictLRU s else s) := by
  simp only [getStatement, hl, hc]

theorem getStatement_miss_ok_full (compile : String → Except String Unit) (s : DBContext)
    (sql : String) (hl : cacheLookup s.statementCache sql = none)
    (hcap : MAX_CACHE_SIZE ≤ s.statementCache.length) (hc : compile sql = Except.ok ()) :
    getStatement compile s sql =
      (Except.ok (evictLRU s).nextStmt,
       { statementCache := (evictLRU s).statementCache ++ [(sql, (evictLRU s).nextStmt)],
         lruList := sql :: (evictLRU s).lruList,
         callerRefs := bumpRef (evictLRU s).callerRefs (evictLRU s).nextStmt,
         finalized := (evictLRU s).finalized,
         nextStmt := (evictLRU s).nextStmt + 1 }) := by
  simp only [getStatement, hl, hc, if_pos hcap]

theorem getStatement_miss_ok_room (compile : String → Except String Unit) (s : DBContext)
    (sql : String) (hl : cacheLookup s.statementCache sql = none)
    (hcap : ¬ MAX_CACHE_SIZE ≤ s.statementCache.length) (hc : compile sql = Except.ok ()) :
    getStatement compile s sql =
      (Except.ok s.nextStmt,
       { statementCache := s.statementCache ++ [(sql, s.nextStmt)],
         lruList := sql :: s.lruList,
         callerRefs := bumpRef s.callerRefs s.nextStmt,
         finalized := s.finalized,
         nextStmt := s.nextStmt + 1 }) := by
  simp only [getStatement, hl, hc, if_neg hcap]

theorem cacheStep_not_cached (compile : String → Except String Unit) (sql msg : String)
    (hc : compile sql = Except.error msg) (s : DBContext) (op : CacheOp)
    (h : cacheLookup s.statementCache sql = none) :
    cacheLookup (cacheStep compile s op).statementCache sql = none := by
  cases op with
  | release i =>
    rw [cacheStep, releaseStmt_cache]
    exact h
  | acquire q =>
    rw [cacheStep]
    cases hq : cacheLookup s.statementCache q with
    | some i =>
      rw [getStatement_hit compile s q i hq]
      exact h
    | none =>
      cases hcq : compile q with
      | error m =>
        rw [getStatement_miss_error compile s q m hq hcq]
        by_cases hcap : MAX_CACHE_SIZE ≤ s.statementCache.length
        · rw [if_pos hcap, evictLRU_cache]
          exact cacheLookup_eraseKey_none _ _ _ h
        · rw [if_neg hcap]
          exact h
      | ok u =>
        cases u
        have hqs : q ≠ sql := by
          intro heq
          rw [heq, hc] at hcq
          cases hcq
        by_cases hcap : MAX_CACHE_SIZE ≤ s.statementCache.length
        · rw [getStatement_miss_ok_full compile s q hq hcap hcq]
          refine cacheLookup_append_ne _ _ _ _ hqs ?_
          rw [evictLRU_cache]
          exact cacheLookup_eraseKey_none _ _ _ h
        · rw [getStatement_miss_ok_room compile s q hq hcap hcq]
          exact cacheLookup_append_ne _ _ _ _ hqs h

theorem runCache_not_cached_aux (compile : String → Except String Unit) (sql msg : String)
    (hc : compile sql = Except.error msg) :
    ∀ (ops : List CacheOp) (s : DBContext), cacheLookup s.statementCache sql = none →
      cacheLookup (ops.foldl (cacheStep compile) s).statementCache sql = none := by
  intro ops
  induction ops with
  | nil => intro s h; simpa using h
  | cons op rest ih =>
    intro s h
    rw [List.foldl_cons]
    exact ih _ (cacheStep_not_cached compile sql msg hc s op h)

/-- C6: when the engine rejects a compilation, getStatement raises an
error whose message carries both the engine's diagnostic and the
original SQL text, and no entry for that text is ever inserted into the
cache — lookups of it after any sequence of operations still miss. -/
theorem prepare_failure_not_cached :
    (∀ (compile : String → Except String Unit) (s : DBContext) (sql msg : String),
        compile sql = Except.error msg → cacheLookup s.statementCache sql = none →
        (getStatement compile s sql).1
            = Except.error ("Prepare failed: " ++ msg ++ " SQL: " ++ sql) ∧
          cacheLookup (getStatement compile s sql).2.statementCache sql = none) ∧
      (∀ (compile : String → Except String Unit) (sql msg : String) (ops : List CacheOp),
        compile sql = Except.error msg →
        cacheLookup (runCache compile ops).statementCache sql = none) := by
  constructor
  · intro compile s sql msg hc hl
    rw [getStatement_miss_error compile s sql msg hl hc]
    refine ⟨rfl, ?_⟩
    by_cases hcap : MAX_CACHE_SIZE ≤ s.statementCache.length
    · rw [if_pos hcap, evictLRU_cache]
      exact cacheLookup_eraseKey_none _ _ _ hl
    · rw [if_neg hcap]
      exact hl
  · intro compile sql msg ops hc
    exact runCache_not_cached_aux compile sql msg hc ops initCtx rfl

/-- A compile oracle that rejects one SQL text, used by witnesses. -/
def badCompile : String → Except String Unit :=
  fun q => if q = "BAD SQL" then Except.error "syntax error" else Except.ok ()

/-- Witness for C6 at a concrete rejected text: the thrown message is
the concatenation carrying diagnostic and SQL, and after acquiring the
bad text (twice) and a good one, the bad text is still not cached. -/
theorem prepare_failure_not_cached_witness :
    badCompile "BAD SQL" = Except.error "syntax error" ∧
      cacheLookup initCtx.statementCache "BAD SQL" = none ∧
      (getStatement badCompile initCtx "BAD SQL").1
        = Except.error "Prepare failed: syntax error SQL: BAD SQL" ∧
      cacheLookup (runCache badCompile [CacheOp.acquire "BAD SQL", CacheOp.acquire "q1",
        CacheOp.acquire "BAD SQL"]).statementCache "BAD SQL" = none :=
  ⟨rfl, rfl,
   (prepare_failure_not_cached.1 badCompile initCtx "BAD SQL" "syntax error" rfl rfl).1,
   prepare_failure_not_cached.2 badCompile "BAD SQL" "syntax error"
     [CacheOp.acquire "BAD SQL", CacheOp.acquire "q1", CacheOp.acquire "BAD SQL"] rfl⟩

-- ==========================================================
-- C2
-- ==========================================================

theorem getStatement_ok_lookup (compile : String → Except String Unit) (s s2 : DBContext)
    (sql : String) (h : Nat) (heq : getStatement compile s sql = (Except.ok h, s2)) :
    cacheLookup s2.statementCache sql = some h := by
  cases hl : cacheLookup s.statementCache sql with
  | some i =>
    rw [getStatement_hit compile s sql i hl] at heq
    simp only [Prod.mk.injEq] at heq
    obtain ⟨h1, h2⟩ := heq
    injection h1 with hv
    subst hv
    subst h2
    exact hl
  | none =>
    cases hcx : compile sql with
    | error m =>
      rw [getStatement_miss_error compile s sql m hl hcx] at heq
      simp only [Prod.mk.injEq] at heq
      exact absurd heq.1 (by simp)
    | ok u =>
      cases u
      by_cases hcap : MAX_CACHE_SIZE ≤ s.statementCache.length
      · rw [getStatement_miss_ok_full compile s sql hl hcap hcx] at heq
        simp only [Prod.mk.injEq] at heq
        obtain ⟨h1, h2⟩ := heq
        injection h1 with hv
        subst hv
        subst h2
        have hnone : cacheLookup (evictLRU s).statementCache sql = none := by
          rw [evictLRU_cache]
          exact cacheLookup_eraseKey_none _ _ _ hl
        exact cacheLookup_append_self _ _ _ hnone
      · rw [getStatement_miss_ok_room compile s sql hl hcap hcx] at heq
        simp only [Prod.mk.injEq] at heq
        obtain ⟨h1, h2⟩ := heq
        injection h1 with hv
        subst hv
        subst h2
        exact cacheLookup_append_self _ _ _ hl

/-- C2: the capacity is fixed at 64; a repeated acquisition of the same
text (no intervening eviction) is a cache hit returning the same
compiled statement and moving the text to the most-recently-used front;
an over-capacity miss evicts exactly the least-recently-used entry (the
back of the recency list), one eviction per such miss; an
under-capacity miss evicts nothing. -/
theorem lru_cache_hit_and_strict_eviction :
    MAX_CACHE_SIZE = 64 ∧
      (∀ (compile : String → Except String Unit) (s s2 : DBContext) (sql : String) (h : Nat),
        getStatement compile s sql = (Except.ok h, s2) →
        (getStatement compile s2 sql).1 = Except.ok h ∧
          (getStatement compile s2 sql).2.statementCache = s2.statementCache ∧
          (getStatement compile s2 sql).2.lruList = sql :: s2.lruList.erase sql) ∧
      (∀ (compile : String → Except String Unit) (s : DBContext) (sql : String) (i : Nat),
        cacheLookup s.statementCache sql = some i →
        getStatement compile s sql =
          (Except.ok i, { s with lruList := sql :: s.lruList.erase sql,
                                 callerRefs := bumpRef s.callerRefs i })) ∧
      (∀ (compile : String → Except String Unit) (s : DBContext) (sql : String),
        cacheLookup s.statementCache sql = none →
        MAX_CACHE_SIZE ≤ s.statementCache.length → compile sql = Except.ok () →
        (getStatement compile s sql).1 = Except.ok s.nextStmt ∧
          (getStatement compile s sql).2.statementCache
            = eraseKey s.statementCache (s.lruList.getLast?.getD "") ++ [(sql, s.nextStmt)] ∧
          (getStatement compile s sql).2.lruList = sql :: s.lruList.dropLast) ∧
      (∀ (compile : String → Except String Unit) (s : DBContext) (sql : String),
        cacheLookup s.statementCache sql = none →
        ¬ MAX_CACHE_SIZE ≤ s.statementCache.length → compile sql = Except.ok () →
        (getStatement compile s sql).1 = Except.ok s.nextStmt ∧
          (getStatement compile s sql).2.statementCache
            = s.statementCache ++ [(sql, s.nextStmt)] ∧
          (getStatement compile s sql).2.lruList = sql :: s.lruList) := by
  refine ⟨rfl, ?_, ?_, ?_, ?_⟩
  · intro compile s s2 sql h heq
    have hlk := getStatement_ok_lookup compile s s2 sql h heq
    rw [getStatement_hit compile s2 sql h hlk]
    exact ⟨rfl, rfl, rfl⟩
  · intro compile s sql i hl
    exact getStatement_hit compile s sql i hl
  · intro compile s sql hl hcap hc
    rw [getStatement_miss_ok_full compile s sql hl hcap hc]
    refine ⟨?_, ?_, ?_⟩
    · rw [evictLRU_next]
    · rw [evictLRU_cache, evictLRU_next]
    · rw [evictLRU_lru]
  · intro compile s sql hl hcap hc
    rw [getStatement_miss_ok_room compile s sql hl hcap hc]
    exact ⟨rfl, rfl, rfl⟩

/-- A compile oracle that accepts everything, used by witnesses. -/
def okCompile : String → Except String Unit := fun _ => Except.ok ()

/-- A DBContext at full capacity: 64 cached statements "0".."63", with
"63" at the least-recently-used back of the recency list. -/
def s64 : DBContext :=
  { statementCache := (List.range 64).map (fun i => (Nat.repr i, i)),
    lruList := (List.range 64).map (fun i => Nat.repr i),
    callerRefs := fun _ => 0,
    finalized := [],
    nextStmt := 64 }

/-- Witness for C2 at concrete states: acquiring a 65th distinct text on
a full 64-entry cache evicts exactly the LRU entry "63" and inserts the
new text, and a repeated acquisition on a fresh context returns the same
handle. -/
theorem lru_cache_hit_and_strict_eviction_witness :
    cacheLookup s64.statementCache "extra" = none ∧
      MAX_CACHE_SIZE ≤ s64.statementCache.length ∧
      (getStatement okCompile s64 "extra").1 = Except.ok 64 ∧
      (getStatement okCompile s64 "extra").2.statementCache
        = eraseKey s64.statementCache "63" ++ [("extra", 64)] ∧
      (getStatement okCompile s64 "extra").2.lruList = "extra" :: s64.lruList.dropLast ∧
      (getStatement okCompile initCtx "q").1 = Except.ok 0 ∧
      (getStatement okCompile (getStatement okCompile initCtx "q").2 "q").1 = Except.ok 0 :=
  ⟨by decide, by decide,
   (lru_cache_hit_and_strict_eviction.2.2.2.1 okCompile s64 "extra"
     (by decide) (by decide) rfl).1,
   (lru_cache_hit_and_strict_eviction.2.2.2.1 okCompile s64 "extra"
     (by decide) (by decide) rfl).2.1,
   (lru_cache_hit_and_strict_eviction.2.2.2.1 okCompile s64 "extra"
     (by decide) (by decide) rfl).2.2,
   rfl,
   (lru_cache_hit_and_strict_eviction.2.1 okCompile initCtx
     (getStatement okCompile initCtx "q").2 "q" 0 rfl).1⟩

-- ==========================================================
-- C1
-- ==========================================================

theorem cacheLookup_some_idInCache (c : List (String × Nat)) (k : String) (i : Nat)
    (h : cacheLookup c k = some i) : idInCache c i = true := by
  induction c with
  | nil => cases h
  | cons kv rest ih =>
    rw [cacheLookup] at h
    by_cases h1 : kv.1 = k
    · rw [if_pos h1] at h
      injection h with hv
      simp [idInCache, hv]
    · rw [if_neg h1] at h
      simp [idInCache, ih h]

theorem idInCache_eraseKey_mono (c : List (String × Nat)) (k : String) (i : Nat)
    (h : idInCache (eraseKey c k) i = true) : idInCache c i = true := by
  induction c with
  | nil => cases h
  | cons kv rest ih =>
    rw [eraseKey] at h
    by_cases h1 : kv.1 = k
    · rw [if_pos h1] at h
      simp [idInCache, ih h]
    · rw [if_neg h1] at h
      rw [idInCache] at h ⊢
      cases hkv : (kv.2 == i) with
      | true => simp
      | false =>
        rw [hkv] at h
        simp at h ⊢
        exact ih h

theorem idInCache_append (c : List (String × Nat)) (q : String) (n i : Nat) :
    idInCache (c ++ [(q, n)]) i = (idInCache c i || n == i) := by
  induction c with
  | nil => simp [idInCache]
  | cons kv rest ih =>
    rw [List.cons_append, idInCache, ih, idInCache, Bool.or_assoc]

/-- The reference-safety invariant of a DBContext: finalized statements
have no outstanding caller reference and no cache entry; cache entries,
finalized ids, and referenced ids are all below the allocation counter. -/
def CacheInv (s : DBContext) : Prop :=
  (∀ i ∈ s.finalized, s.callerRefs i = 0 ∧ idInCache s.statementCache i = false) ∧
    (∀ i, idInCache s.statementCache i = true → i < s.nextStmt) ∧
    (∀ i ∈ s.finalized, i < s.nextStmt) ∧
    (∀ i, 0 < s.callerRefs i → i < s.nextStmt)

theorem cacheInv_init : CacheInv initCtx := by
  refine ⟨?_, ?_, ?_, ?_⟩
  · intro i h
    exact absurd h (List.not_mem_nil i)
  · intro i h
    cases h
  · intro i h
    exact absurd h (List.not_mem_nil i)
  · intro i h
    cases h

theorem finalizeIfDead_inv (s : DBContext) (i : Nat) (hinv : CacheInv s)
    (hlt : i < s.nextStmt) : CacheInv (finalizeIfDead s i) := by
  rw [finalizeIfDead]
  split_ifs with h
  · obtain ⟨hf, hcache, hfin, hrefs⟩ := hinv
    refine ⟨?_, hcache, ?_, hrefs⟩
    · intro j hj
      rw [List.mem_append] at hj
      cases hj with
      | inl hj => exact hf j hj
      | inr hj =>
        rw [List.mem_singleton] at hj
        subst hj
        exact h
    · intro j hj
      rw [List.mem_append] at hj
      cases hj with
      | inl hj => exact hfin j hj
      | inr hj =>
        rw [List.mem_singleton] at hj
        subst hj
        exact hlt
  · exact hinv

theorem evictLRU_inv (s : DBContext) (hinv : CacheInv s) : CacheInv (evictLRU s) := by
  unfold evictLRU
  split
  · next evId heq =>
    refine finalizeIfDead_inv _ evId ?_ ?_
    · obtain ⟨hf, hcache, hfin, hrefs⟩ := hinv
      refine ⟨?_, ?_, hfin, hrefs⟩
      · intro j hj
        obtain ⟨r1, r2⟩ := hf j hj
        refine ⟨r1, ?_⟩
        cases hcase : idInCache (eraseKey s.statementCache (s.lruList.getLast?.getD "")) j with
        | false => rfl
        | true =>
          exfalso
          have hmono := idInCache_eraseKey_mono _ _ _ hcase
          rw [hmono] at r2
          cases r2
      · intro j hj
        exact hcache j (idInCache_eraseKey_mono _ _ _ hj)
    · exact hinv.2.1 evId (cacheLookup_some_idInCache _ _ _ heq)
  · obtain ⟨hf, hcache, hfin, hrefs⟩ := hinv
    exact ⟨hf, hcache, hfin, hrefs⟩

theorem insert_inv (s : DBContext) (sql : String) (hinv : CacheInv s) :
    CacheInv { statementCache := s.statementCache ++ [(sql, s.nextStmt)],
               lruList := sql :: s.lruList,
               callerRefs := bumpRef s.callerRefs s.nextStmt,
               finalized := s.finalized,
               nextStmt := s.nextStmt + 1 } := by
  obtain ⟨hf, hcache, hfin, hrefs⟩ := hinv
  refine ⟨?_, ?_, ?_, ?_⟩
  · intro j hj
    obtain ⟨r1, r2⟩ := hf j hj
    have hjn : j ≠ s.nextStmt := Nat.ne_of_lt (hfin j hj)
    constructor
    · simp only [bumpRef, if_neg hjn]
      exact r1
    · rw [idInCache_append, r2]
      simp [Ne.symm hjn]
  · intro j hj
    rw [idInCache_append] at hj
    cases hor : idInCache s.statementCache j with
    | true => exact Nat.lt_succ_of_lt (hcache j hor)
    | false =>
      rw [hor] at hj
      simp only [Bool.false_or, beq_iff_eq] at hj
      subst hj
      exact Nat.lt_succ_self _
  · intro j hj
    exact Nat.lt_succ_of_lt (hfin j hj)
  · intro j hj
    simp only [bumpRef] at hj
    by_cases hjn : j = s.nextStmt
    · subst hjn
      exact Nat.lt_succ_self _
    · rw [if_neg hjn] at hj
      exact Nat.lt_succ_of_lt (hrefs j hj)

theorem releaseStmt_inv (s : DBContext) (i : Nat) (hinv : CacheInv s) :
    CacheInv (releaseStmt s i) := by
  rw [releaseStmt]
  split_ifs with h
  · exact hinv
  · have hpos : 0 < s.callerRefs i := Nat.pos_of_ne_zero h
    refine finalizeIfDead_inv _ i ?_ (hinv.2.2.2 i hpos)
    obtain ⟨hf, hcache, hfin, hrefs⟩ := hinv
    refine ⟨?_, hcache, hfin, ?_⟩
    · intro j hj
      obtain ⟨r1, r2⟩ := hf j hj
      refine ⟨?_, r2⟩
      have hji : j ≠ i := by
        intro e
        subst e
        rw [r1] at hpos
        cases hpos
      simp only [dropRef, if_neg hji]
      exact r1
    · intro j hj
      simp only [dropRef] at hj
      by_cases hji : j = i
      · subst hji
        exact hrefs j hpos
      · rw [if_neg hji] at hj
        exact hrefs j hj

theorem getStatement_state_inv (compile : String → Except String Unit) (s : DBContext)
    (sql : String) (hinv : CacheInv s) : CacheInv (getStatement compile s sql).2 := by
  cases hl : cacheLookup s.statementCache sql with
  | some i =>
    rw [getStatement_hit compile s sql i hl]
    obtain ⟨hf, hcache, hfin, hrefs⟩ := hinv
    have hic : idInCache s.statementCache i = true := cacheLookup_some_idInCache _ _ _ hl
    refine ⟨?_, hcache, hfin, ?_⟩
    · intro j hj
      obtain ⟨r1, r2⟩ := hf j hj
      refine ⟨?_, r2⟩
      have hji : j ≠ i := by
        intro e
        subst e
        rw [hic] at r2
        cases r2
      simp only [bumpRef, if_neg hji]
      exact r1
    · intro j hj
      simp only [bumpRef] at hj
      by_cases hji : j = i
      · subst hji
        exact hcache j hic
      · rw [if_neg hji] at hj
        exact hrefs j hj
  | none =>
    cases hcx : compile sql with
    | error m =>
      rw [getStatement_miss_error compile s sql m hl hcx]
      by_cases hcap : MAX_CACHE_SIZE ≤ s.statementCache.length
      · show CacheInv (if MAX_CACHE_SIZE ≤ s.statementCache.length then evictLRU s else s)
        rw [if_pos hcap]
        exact evictLRU_inv s hinv
      · show CacheInv (if MAX_CACHE_SIZE ≤ s.statementCache.length then evictLRU s else s)
        rw [if_neg hcap]
        exact hinv
    | ok u =>
      cases u
      by_cases hcap : MAX_CACHE_SIZE ≤ s.statementCache.length
      · rw [getStatement_miss_ok_full compile s sql hl hcap hcx]
        exact insert_inv (evictLRU s) sql (evictLRU_inv s hinv)
      · rw [getStatement_miss_ok_room compile s sql hl hcap hcx]
        exact insert_inv s sql hinv

theorem cacheStep_inv (compile : String → Except String Unit) (s : DBContext) (op : CacheOp)
    (hinv : CacheInv s) : CacheInv (cacheStep compile s op) := by
  cases op with
  | acquire sql => exact getStatement_state_inv compile s sql hinv
  | release i => exact releaseStmt_inv s i hinv

theorem runCache_inv (compile : String → Except String Unit) (ops : List CacheOp) :
    CacheInv (runCache compile ops) := by
  rw [runCache]
  have aux : ∀ (l : List CacheOp) (s : DBContext), CacheInv s →
      CacheInv (l.foldl (cacheStep compile) s) := by
    intro l
    induction l with
    | nil => intro s h; simpa using h
    | cons op rest ih =>
      intro s h
      rw [List.foldl_cons]
      exact ih _ (cacheStep_inv compile s op h)
  exact aux ops initCtx cacheInv_init

/-- C1: after any sequence of getStatement acquisitions and handle
releases, a statement for which a caller still holds a live shared
reference, or which the cache still holds, is never among the finalized
statements: eviction removes only the cache's own reference, and the
deleter (sqlite3_finalize) runs only when the reference count reaches
zero. -/
theorem statement_never_finalized_while_referenced
    (compile : String → Except String Unit) (ops : List CacheOp) (i : Nat)
    (h : 0 < (runCache compile ops).callerRefs i ∨
      idInCache (runCache compile ops).statementCache i = true) :
    i ∉ (runCache compile ops).finalized := by
  intro hmem
  obtain ⟨hf, hcache, hfin, hrefs⟩ := runCache_inv compile ops
  obtain ⟨r1, r2⟩ := hf i hmem
  cases h with
  | inl hpos =>
    rw [r1] at hpos
    exact absurd hpos (Nat.lt_irrefl 0)
  | inr hic =>
    rw [hic] at r2
    cases r2

/-- Witness for C1: after one acquisition the caller holds a live
reference to statement 0, and 0 is not finalized. -/
theorem statement_never_finalized_while_referenced_witness :
    0 < (runCache okCompile [CacheOp.acquire "a"]).callerRefs 0 ∧
      0 ∉ (runCache okCompile [CacheOp.acquire "a"]).finalized :=
  ⟨by decide,
   statement_never_finalized_while_referenced okCompile [CacheOp.acquire "a"] 0
     (Or.inl (by decide))⟩
